import Mathlib

/-!
Shallow embedding of the gatekeeper authorization pipeline.

The repository contains two variants of the same module: src/lib/index.ts
and a second source file with the identical exported surface. Both export a
gatekeeper factory whose trust operation normalizes a raw input through a
capture function, normalizes an optional raw context through an optional
context function, then runs an ordered list of named rules, accumulating
each result under the rule tag, translating any error thrown inside the
rule loop into a GatekeeperUnauthorizedError that carries the tag of the
rule that was executing.

The embedding models JavaScript promises and synchronous returns uniformly
(await flattens both), thrown values as an inductive Thrown, the value
undefined as Option.none, and a JavaScript plain object as an
insertion-ordered association list from strings to values.
-/

namespace Gatekeeper

/-- A JavaScript Error value, modelled by its message string. -/
structure JsError where
  message : String
deriving Repr, DecidableEq

/-- A thrown JavaScript value: either a proper Error instance, or any other
value remembered through its String rendering, which is all the catch
clause of trust observes of a non-Error thrown value. -/
inductive Thrown where
  | error (e : JsError)
  | value (stringified : String)
deriving Repr, DecidableEq

/-- Embeds the GatekeeperUnauthorizedError class, identical in both source
variants: a message, a reason that is always an Error value, and the tag of
the rule blamed for the failure. -/
structure GatekeeperUnauthorizedError where
  message : String
  reason : JsError
  rule : String
deriving Repr, DecidableEq

/-- The constructor of GatekeeperUnauthorizedError: its rule parameter has
the default value failcheck, used when the caller passes undefined. -/
def GatekeeperUnauthorizedError.make (message : String) (reason : JsError)
    (rule : Option String) : GatekeeperUnauthorizedError :=
  ⟨message, reason, match rule with | some r => r | none => "failcheck"⟩

/-- The constant top-level message of every translated failure. -/
def UNAUTHORIZED : String := "UNAUTHORIZED"

/-- A rule evaluator: receives the validated parameters and the validated
context (undefined when no context function is configured, hence Option),
and either throws, or returns undefined (Option.none), or returns a value. -/
abbrev Evaluator (Parameters Context Val : Type) : Type :=
  Parameters → Option Context → Except Thrown (Option Val)

/-- The configuration bundle accepted by the gatekeeper factory: a capture
function, an optional context function and an ordered rule list. Capture
and context may themselves throw, hence Except. -/
structure GatekeeperOptions (Input RawCtx Parameters Context Val : Type) where
  capture : Input → Except Thrown Parameters
  context : Option (RawCtx → Except Thrown Context)
  rules : List (String × Evaluator Parameters Context Val)

/-- Outcome of a trust invocation that rejects: either the untranslated
value thrown by capture or by the context function before the rule loop
starts, or the translated GatekeeperUnauthorizedError thrown by the catch
clause around the rule loop. -/
inductive TrustFailure where
  | raw (t : Thrown)
  | unauthorized (e : GatekeeperUnauthorizedError)
deriving Repr, DecidableEq

/-- JavaScript property assignment on a plain object, modelled on an
insertion-ordered association list: overwrite in place when the key is
already present, append otherwise. -/
def setKey {α : Type} : List (String × α) → String → α → List (String × α)
  | [], k, v => [(k, v)]
  | e :: rest, k, v =>
    if e.1 = k then (k, v) :: rest else e :: setKey rest k v

variable {Input RawCtx Parameters Context Val : Type}

/-- The rule loop of trust in src/lib/index.ts: currentRule is assigned the
tag before the evaluator runs, so an error thrown by the evaluator is
paired with the tag of the throwing rule; the awaited result of each
evaluator is written into the accumulator unconditionally. -/
def ruleLoopLib (p : Parameters) (c : Option Context) :
    List (String × Evaluator Parameters Context Val) →
    List (String × Option Val) →
    Except (Thrown × Option String) (List (String × Option Val))
  | [], acc => .ok acc
  | (tag, rule) :: rest, acc =>
    match rule p c with
    | .error e => .error (e, some tag)
    | .ok result => ruleLoopLib p c rest (setKey acc tag result)

/-- The rule loop of trust in the second source variant: identical to
ruleLoopLib except that a result that is undefined is skipped and never
written into the accumulator. -/
def ruleLoopPart (p : Parameters) (c : Option Context) :
    List (String × Evaluator Parameters Context Val) →
    List (String × Option Val) →
    Except (Thrown × Option String) (List (String × Option Val))
  | [], acc => .ok acc
  | (tag, rule) :: rest, acc =>
    match rule p c with
    | .error e => .error (e, some tag)
    | .ok result =>
      ruleLoopPart p c rest (if result.isSome then setKey acc tag result else acc)

/-- The context normalization step shared by both trust variants, executed
before capture: when a context function is configured it is applied once to
the raw context and its result becomes the validated context; otherwise the
validated context is undefined, whatever raw context was supplied. -/
def ctxStep (o : GatekeeperOptions Input RawCtx Parameters Context Val)
    (rawCtx : RawCtx) : Except Thrown (Option Context) :=
  match o.context with
  | some f =>
    match f rawCtx with
    | .error t => .error t
    | .ok c => .ok (some c)
  | none => .ok none

/-- The catch clause translation of a thrown value into the reason field: a
proper Error instance is attached verbatim, any other thrown value is
wrapped in a new Error holding its String rendering. -/
def translateReason : Thrown → JsError
  | .error e => e
  | .value s => JsError.mk s

/-- The trust operation of src/lib/index.ts: context normalization runs
first, then capture, both outside the try block so their errors propagate
untranslated; the rule loop then runs inside the try block and any error it
raises is translated into a GatekeeperUnauthorizedError carrying the
current rule tag. -/
def trustLib (o : GatekeeperOptions Input RawCtx Parameters Context Val)
    (input : Input) (rawCtx : RawCtx) :
    Except TrustFailure (List (String × Option Val)) :=
  match ctxStep o rawCtx with
  | .error t => .error (.raw t)
  | .ok vctx =>
    match o.capture input with
    | .error t => .error (.raw t)
    | .ok p =>
      match ruleLoopLib p vctx o.rules [] with
      | .ok acc => .ok acc
      | .error (t, cur) =>
        .error (.unauthorized
          (GatekeeperUnauthorizedError.make UNAUTHORIZED (translateReason t) cur))

/-- The trust operation of the second source variant, identical to trustLib
except for its rule loop, which skips undefined results. -/
def trustPart (o : GatekeeperOptions Input RawCtx Parameters Context Val)
    (input : Input) (rawCtx : RawCtx) :
    Except TrustFailure (List (String × Option Val)) :=
  match ctxStep o rawCtx with
  | .error t => .error (.raw t)
  | .ok vctx =>
    match o.capture input with
    | .error t => .error (.raw t)
    | .ok p =>
      match ruleLoopPart p vctx o.rules [] with
      | .ok acc => .ok acc
      | .error (t, cur) =>
        .error (.unauthorized
          (GatekeeperUnauthorizedError.make UNAUTHORIZED (translateReason t) cur))

/-- The invocation trace of the rule loop: the tags of the evaluators the
loop invokes, in the order it invokes them, each paired with the context
value handed to that evaluator. Both trust variants invoke the same
evaluators, in the same order, with the same arguments, so one trace
instruments both. -/
def ruleTrace (p : Parameters) (c : Option Context) :
    List (String × Evaluator Parameters Context Val) →
    List (String × Option Context)
  | [] => []
  | (tag, rule) :: rest =>
    match rule p c with
    | .error _ => [(tag, c)]
    | .ok _ => (tag, c) :: ruleTrace p c rest

/-- The invocation trace of a whole trust call: empty when context
normalization or capture throws, because the rule loop is never entered;
otherwise the trace of the rule loop. -/
def trustTrace (o : GatekeeperOptions Input RawCtx Parameters Context Val)
    (input : Input) (rawCtx : RawCtx) : List (String × Option Context) :=
  match ctxStep o rawCtx with
  | .error _ => []
  | .ok vctx =>
    match o.capture input with
    | .error _ => []
    | .ok p => ruleTrace p vctx o.rules

/-! Helper lemmas about the accumulator and the two rule loops. -/

/-- Writing a key that is absent from the object appends the new entry. -/
theorem setKey_fresh {α : Type} (obj : List (String × α)) (k : String) (v : α)
    (h : ∀ e ∈ obj, e.1 ≠ k) : setKey obj k v = obj ++ [(k, v)] := by
  induction obj with
  | nil => rfl
  | cons e rest ih =>
    have hek : e.1 ≠ k := h e (by simp)
    simp [setKey, hek, ih (fun x hx => h x (by simp [hx]))]

/-- Every entry of the rule loop trace carries the one context value the
loop was given. -/
theorem ruleTrace_ctx (p : Parameters) (c : Option Context)
    (rules : List (String × Evaluator Parameters Context Val)) :
    ∀ e ∈ ruleTrace p c rules, e.2 = c := by
  induction rules with
  | nil => intro e he; simp [ruleTrace] at he
  | cons r rest ih =>
    obtain ⟨tag, rule⟩ := r
    intro e he
    cases hrv : rule p c with
    | error t =>
      simp [ruleTrace, hrv] at he
      simp [he]
    | ok v =>
      simp [ruleTrace, hrv] at he
      rcases he with he | he
      · simp [he]
      · exact ih e he

/-- The tags of the rule loop trace form an initial segment of the declared
tag list. -/
theorem ruleTrace_tags_take (p : Parameters) (c : Option Context)
    (rules : List (String × Evaluator Parameters Context Val)) :
    ∃ n, (ruleTrace p c rules).map Prod.fst = (rules.map Prod.fst).take n := by
  induction rules with
  | nil => exact ⟨0, rfl⟩
  | cons r rest ih =>
    obtain ⟨tag, rule⟩ := r
    cases hrv : rule p c with
    | error t => exact ⟨1, by simp [ruleTrace, hrv]⟩
    | ok v =>
      obtain ⟨n, hn⟩ := ih
      exact ⟨n + 1, by simp [ruleTrace, hrv, hn]⟩

/-- When every rule of a first segment evaluates without error, the trace of
the concatenation is the tags of the segment followed by the trace of the
remainder. -/
theorem ruleTrace_append (p : Parameters) (c : Option Context)
    (pre rest : List (String × Evaluator Parameters Context Val)) :
    (∀ r ∈ pre, ∃ v, r.2 p c = Except.ok v) →
    ruleTrace p c (pre ++ rest) =
      pre.map (fun r => (r.1, c)) ++ ruleTrace p c rest := by
  induction pre with
  | nil => intro _; rfl
  | cons r pre ih =>
    intro h
    obtain ⟨tag, rule⟩ := r
    obtain ⟨v, hv⟩ := h (tag, rule) (by simp)
    have hv2 : rule p c = Except.ok v := hv
    simp [ruleTrace, hv2, ih (fun x hx => h x (by simp [hx]))]

/-- When every rule of a first segment evaluates without error, the lib rule
loop on the concatenation continues on the remainder from some accumulator. -/
theorem ruleLoopLib_append (p : Parameters) (c : Option Context)
    (pre rest : List (String × Evaluator Parameters Context Val))
    (acc : List (String × Option Val)) :
    (∀ r ∈ pre, ∃ v, r.2 p c = Except.ok v) →
    ∃ acc2, ruleLoopLib p c (pre ++ rest) acc = ruleLoopLib p c rest acc2 := by
  induction pre generalizing acc with
  | nil => intro _; exact ⟨acc, rfl⟩
  | cons r pre ih =>
    intro h
    obtain ⟨tag, rule⟩ := r
    obtain ⟨v, hv⟩ := h (tag, rule) (by simp)
    have hv2 : rule p c = Except.ok v := hv
    obtain ⟨acc2, ha⟩ := ih (setKey acc tag v) (fun x hx => h x (by simp [hx]))
    exact ⟨acc2, by simp [ruleLoopLib, hv2, ha]⟩

/-- The two rule loops fail in exactly the same way: an error of the lib
loop is an error of the skipping loop, from any pair of accumulators. -/
theorem ruleLoop_error_agree (p : Parameters) (c : Option Context)
    (rules : List (String × Evaluator Parameters Context Val))
    (x : Thrown × Option String) :
    ∀ acc1 acc2, ruleLoopLib p c rules acc1 = Except.error x →
      ruleLoopPart p c rules acc2 = Except.error x := by
  induction rules with
  | nil => intro acc1 acc2 h; simp [ruleLoopLib] at h
  | cons r rest ih =>
    intro acc1 acc2 h
    obtain ⟨tag, rule⟩ := r
    cases hrv : rule p c with
    | error t =>
      simp [ruleLoopLib, hrv] at h
      simp [ruleLoopPart, hrv, h]
    | ok v =>
      simp [ruleLoopLib, hrv] at h
      simp only [ruleLoopPart, hrv]
      exact ih _ _ h

/-- When no evaluator returns undefined at the given arguments, the two
rule loops coincide. -/
theorem ruleLoop_eq_of_no_none (p : Parameters) (c : Option Context)
    (rules : List (String × Evaluator Parameters Context Val)) :
    (∀ r ∈ rules, r.2 p c ≠ Except.ok (none : Option Val)) →
    ∀ acc, ruleLoopPart p c rules acc = ruleLoopLib p c rules acc := by
  induction rules with
  | nil => intro _ acc; rfl
  | cons r rest ih =>
    intro h acc
    obtain ⟨tag, rule⟩ := r
    cases hrv : rule p c with
    | error t => simp [ruleLoopLib, ruleLoopPart, hrv]
    | ok v =>
      cases v with
      | none => exact absurd hrv (h (tag, rule) (by simp))
      | some w =>
        simp [ruleLoopLib, ruleLoopPart, hrv,
          ih (fun x hx => h x (by simp [hx])) (setKey acc tag (some w))]

/-- When the tags are pairwise distinct, fresh relative to the accumulator,
and every evaluator returns a defined value, the lib rule loop appends one
entry per rule, keyed by tag, holding the value of that rule. -/
theorem ruleLoopLib_all_some (p : Parameters) (c : Option Context)
    (vf : String → Val)
    (rules : List (String × Evaluator Parameters Context Val)) :
    (rules.map Prod.fst).Nodup →
    (∀ r ∈ rules, r.2 p c = Except.ok (some (vf r.1))) →
    ∀ acc, (∀ r ∈ rules, ∀ e ∈ acc, e.1 ≠ r.1) →
    ruleLoopLib p c rules acc =
      Except.ok (acc ++ rules.map (fun r => (r.1, some (vf r.1)))) := by
  induction rules with
  | nil => intro _ _ acc _; simp [ruleLoopLib]
  | cons r rest ih =>
    intro hnd hvals acc hfresh
    obtain ⟨tag, rule⟩ := r
    have hv : rule p c = Except.ok (some (vf tag)) := hvals (tag, rule) (by simp)
    have hset : setKey acc tag (some (vf tag)) = acc ++ [(tag, some (vf tag))] :=
      setKey_fresh acc tag (some (vf tag))
        (fun e he => hfresh (tag, rule) (by simp) e he)
    have hnd2 : (rest.map Prod.fst).Nodup := (List.nodup_cons.mp hnd).2
    have htag : (tag : String) ∉ rest.map Prod.fst := (List.nodup_cons.mp hnd).1
    have hfresh2 : ∀ r ∈ rest, ∀ e ∈ acc ++ [(tag, some (vf tag))], e.1 ≠ r.1 := by
      intro r hr e he
      rcases List.mem_append.mp he with he | he
      · exact hfresh r (by simp [hr]) e he
      · simp at he
        subst he
        intro hcontra
        apply htag
        have hm : r.1 ∈ rest.map Prod.fst := List.mem_map_of_mem Prod.fst hr
        rw [← hcontra] at hm
        exact hm
    have := ih hnd2 (fun x hx => hvals x (by simp [hx]))
      (acc ++ [(tag, some (vf tag))]) hfresh2
    simp [ruleLoopLib, hv, hset, this]

/-- A lib rule loop error always blames some declared rule tag. -/
theorem ruleLoopLib_error_tag (p : Parameters) (c : Option Context)
    (rules : List (String × Evaluator Parameters Context Val))
    (t : Thrown) (cur : Option String) :
    ∀ acc, ruleLoopLib p c rules acc = Except.error (t, cur) →
      ∃ tag, cur = some tag ∧ tag ∈ rules.map Prod.fst := by
  induction rules with
  | nil => intro acc h; simp [ruleLoopLib] at h
  | cons r rest ih =>
    intro acc h
    obtain ⟨tag, rule⟩ := r
    cases hrv : rule p c with
    | error e =>
      simp [ruleLoopLib, hrv] at h
      exact ⟨tag, by simp [h.2], by simp⟩
    | ok v =>
      simp only [ruleLoopLib, hrv] at h
      obtain ⟨tag2, hc, hm⟩ := ih _ h
      exact ⟨tag2, hc, by simp [hm]⟩

/-- A skipping rule loop error always blames some declared rule tag. -/
theorem ruleLoopPart_error_tag (p : Parameters) (c : Option Context)
    (rules : List (String × Evaluator Parameters Context Val))
    (t : Thrown) (cur : Option String) :
    ∀ acc, ruleLoopPart p c rules acc = Except.error (t, cur) →
      ∃ tag, cur = some tag ∧ tag ∈ rules.map Prod.fst := by
  induction rules with
  | nil => intro acc h; simp [ruleLoopPart] at h
  | cons r rest ih =>
    intro acc h
    obtain ⟨tag, rule⟩ := r
    cases hrv : rule p c with
    | error e =>
      simp [ruleLoopPart, hrv] at h
      exact ⟨tag, by simp [h.2], by simp⟩
    | ok v =>
      simp only [ruleLoopPart, hrv] at h
      obtain ⟨tag2, hc, hm⟩ := ih _ h
      exact ⟨tag2, hc, by simp [hm]⟩

/-! Unfolding and inversion lemmas for the two trust operations. -/

/-- When both normalizers succeed, the trust trace is the rule loop trace. -/
theorem trustTrace_ok (o : GatekeeperOptions Input RawCtx Parameters Context Val)
    (input : Input) (rawCtx : RawCtx) (vctx : Option Context) (p : Parameters)
    (hcs : ctxStep o rawCtx = Except.ok vctx)
    (hcap : o.capture input = Except.ok p) :
    trustTrace o input rawCtx = ruleTrace p vctx o.rules := by
  unfold trustTrace
  rw [hcs, hcap]

/-- When both normalizers succeed and the lib rule loop errors, trustLib
rejects with the translated failure built from that error. -/
theorem trustLib_loop_error (o : GatekeeperOptions Input RawCtx Parameters Context Val)
    (input : Input) (rawCtx : RawCtx) (vctx : Option Context) (p : Parameters)
    (t : Thrown) (cur : Option String)
    (hcs : ctxStep o rawCtx = Except.ok vctx)
    (hcap : o.capture input = Except.ok p)
    (hl : ruleLoopLib p vctx o.rules [] = Except.error (t, cur)) :
    trustLib o input rawCtx = Except.error (TrustFailure.unauthorized
      (GatekeeperUnauthorizedError.make UNAUTHORIZED (translateReason t) cur)) := by
  simp only [trustLib, hcs, hcap, hl]

/-- When both normalizers succeed and the skipping rule loop errors,
trustPart rejects with the translated failure built from that error. -/
theorem trustPart_loop_error (o : GatekeeperOptions Input RawCtx Parameters Context Val)
    (input : Input) (rawCtx : RawCtx) (vctx : Option Context) (p : Parameters)
    (t : Thrown) (cur : Option String)
    (hcs : ctxStep o rawCtx = Except.ok vctx)
    (hcap : o.capture input = Except.ok p)
    (hl : ruleLoopPart p vctx o.rules [] = Except.error (t, cur)) :
    trustPart o input rawCtx = Except.error (TrustFailure.unauthorized
      (GatekeeperUnauthorizedError.make UNAUTHORIZED (translateReason t) cur)) := by
  simp only [trustPart, hcs, hcap, hl]

/-- When both normalizers succeed and the lib rule loop returns, trustLib
returns its accumulator. -/
theorem trustLib_loop_ok (o : GatekeeperOptions Input RawCtx Parameters Context Val)
    (input : Input) (rawCtx : RawCtx) (vctx : Option Context) (p : Parameters)
    (acc : List (String × Option Val))
    (hcs : ctxStep o rawCtx = Except.ok vctx)
    (hcap : o.capture input = Except.ok p)
    (hl : ruleLoopLib p vctx o.rules [] = Except.ok acc) :
    trustLib o input rawCtx = Except.ok acc := by
  simp only [trustLib, hcs, hcap, hl]

/-- When both normalizers succeed and the skipping rule loop returns,
trustPart returns its accumulator. -/
theorem trustPart_loop_ok (o : GatekeeperOptions Input RawCtx Parameters Context Val)
    (input : Input) (rawCtx : RawCtx) (vctx : Option Context) (p : Parameters)
    (acc : List (String × Option Val))
    (hcs : ctxStep o rawCtx = Except.ok vctx)
    (hcap : o.capture input = Except.ok p)
    (hl : ruleLoopPart p vctx o.rules [] = Except.ok acc) :
    trustPart o input rawCtx = Except.ok acc := by
  simp only [trustPart, hcs, hcap, hl]

/-- A translated failure of trustLib always comes from a rule loop error,
and is the translation of that error. -/
theorem trustLib_unauthorized_inv
    (o : GatekeeperOptions Input RawCtx Parameters Context Val)
    (input : Input) (rawCtx : RawCtx) (e : GatekeeperUnauthorizedError)
    (h : trustLib o input rawCtx = Except.error (TrustFailure.unauthorized e)) :
    ∃ vctx p t cur,
      ctxStep o rawCtx = Except.ok vctx ∧ o.capture input = Except.ok p ∧
      ruleLoopLib p vctx o.rules [] = Except.error (t, cur) ∧
      e = GatekeeperUnauthorizedError.make UNAUTHORIZED (translateReason t) cur := by
  unfold trustLib at h
  cases hcs : ctxStep o rawCtx with
  | error t => rw [hcs] at h; simp at h
  | ok vctx =>
    rw [hcs] at h
    cases hcap : o.capture input with
    | error t => rw [hcap] at h; simp at h
    | ok p =>
      rw [hcap] at h
      cases hl : ruleLoopLib p vctx o.rules [] with
      | ok acc => simp [hl] at h
      | error x =>
        obtain ⟨t, cur⟩ := x
        simp [hl] at h
        exact ⟨vctx, p, t, cur, rfl, rfl, hl, h.symm⟩

/-- A translated failure of trustPart always comes from a rule loop error,
and is the translation of that error. -/
theorem trustPart_unauthorized_inv
    (o : GatekeeperOptions Input RawCtx Parameters Context Val)
    (input : Input) (rawCtx : RawCtx) (e : GatekeeperUnauthorizedError)
    (h : trustPart o input rawCtx = Except.error (TrustFailure.unauthorized e)) :
    ∃ vctx p t cur,
      ctxStep o rawCtx = Except.ok vctx ∧ o.capture input = Except.ok p ∧
      ruleLoopPart p vctx o.rules [] = Except.error (t, cur) ∧
      e = GatekeeperUnauthorizedError.make UNAUTHORIZED (translateReason t) cur := by
  unfold trustPart at h
  cases hcs : ctxStep o rawCtx with
  | error t => rw [hcs] at h; simp at h
  | ok vctx =>
    rw [hcs] at h
    cases hcap : o.capture input with
    | error t => rw [hcap] at h; simp at h
    | ok p =>
      rw [hcap] at h
      cases hl : ruleLoopPart p vctx o.rules [] with
      | ok acc => simp [hl] at h
      | error x =>
        obtain ⟨t, cur⟩ := x
        simp [hl] at h
        exact ⟨vctx, p, t, cur, rfl, rfl, hl, h.symm⟩

/-! Concrete pipelines used to exercise the theorems on closed inputs. -/

/-- Whether a trust outcome is a translated authorization failure. -/
def isUnauthorized {β : Type} : Except TrustFailure β → Bool
  | .error (.unauthorized _) => true
  | _ => false

/-- Pipeline with a rule returning undefined followed by one returning 1,
mirroring the void-return test of the repository test suite. -/
def voidOptions : GatekeeperOptions Unit Unit Unit Unit Nat :=
  ⟨fun _ => Except.ok (), none,
   [("voidRule", fun _ _ => Except.ok none),
    ("normalRule", fun _ _ => Except.ok (some 1))]⟩

/-- Pipeline whose two rules both succeed with defined values. -/
def okOptions : GatekeeperOptions Unit Unit Unit Unit Nat :=
  ⟨fun _ => Except.ok (), none,
   [("a", fun _ _ => Except.ok (some 1)),
    ("b", fun _ _ => Except.ok (some 2))]⟩

/-- Pipeline whose middle rule throws a proper Error. -/
def failOptions : GatekeeperOptions Unit Unit Unit Unit Nat :=
  ⟨fun _ => Except.ok (), none,
   [("first", fun _ _ => Except.ok (some 1)),
    ("boom", fun _ _ => Except.error (Thrown.error ⟨"x"⟩)),
    ("after", fun _ _ => Except.ok (some 3))]⟩

/-- Pipeline whose capture function throws. -/
def badCaptureOptions : GatekeeperOptions Unit Unit Unit Unit Nat :=
  ⟨fun _ => Except.error (Thrown.error ⟨"capfail"⟩), none,
   [("never", fun _ _ => Except.ok (some 1))]⟩

/-- Pipeline with an empty rule list. -/
def emptyOptions : GatekeeperOptions Unit Unit Unit Unit Nat :=
  ⟨fun _ => Except.ok (), none, []⟩

/-- Pipeline with a configured context function returning 5. -/
def ctxOptions : GatekeeperOptions Unit Unit Unit Nat Nat :=
  ⟨fun _ => Except.ok (), some (fun _ => Except.ok 5),
   [("r1", fun _ c => Except.ok (some (match c with | some n => n | none => 0)))]⟩

/-- Pipeline without a context function. -/
def noCtxOptions : GatekeeperOptions Unit Unit Unit Nat Nat :=
  ⟨fun _ => Except.ok (), none,
   [("r1", fun _ _ => Except.ok (some 7))]⟩

/-! Claim theorems. -/

/-- C2: the claim states that a rule whose evaluator returns the undefined
sentinel contributes no entry to the result mapping of trust, its name
being absent rather than present with an empty value. On the pipeline that
mirrors the repository test for void returns, the trust of src/lib/index.ts
violates this: its mapping carries the key voidRule bound to undefined,
while the trust of the second source variant omits the key exactly as the
claim, the type-level Rules mapping of src/lib/index.ts and the repository
test require. -/
theorem c2_lib_keeps_void_entry :
    trustLib voidOptions () () =
      Except.ok [("voidRule", (none : Option Nat)), ("normalRule", some 1)] ∧
    trustPart voidOptions () () = Except.ok [("normalRule", some 1)] := by
  constructor <;> rfl

/-- C3 counterexample: on the pipeline whose first rule returns undefined,
the trust of src/lib/index.ts and the trust of the second source variant
return different result mappings, so the two functions are not equivalent. -/
theorem c3_trust_variants_differ :
    trustLib voidOptions () () ≠ trustPart voidOptions () () := by
  intro h
  rw [c2_lib_keeps_void_entry.1, c2_lib_keeps_void_entry.2] at h
  simp at h

/-- C3 (amended): provided no rule evaluator ever returns the undefined
sentinel, the two trust functions agree on every configuration and every
input: same result mapping on success and the same failure otherwise. -/
theorem c3_trust_variants_agree
    (o : GatekeeperOptions Input RawCtx Parameters Context Val)
    (input : Input) (rawCtx : RawCtx)
    (h : ∀ r ∈ o.rules, ∀ p c, r.2 p c ≠ Except.ok (none : Option Val)) :
    trustLib o input rawCtx = trustPart o input rawCtx := by
  unfold trustLib trustPart
  cases hcs : ctxStep o rawCtx with
  | error t => rfl
  | ok vctx =>
    cases hcap : o.capture input with
    | error t => rfl
    | ok p =>
      have he := ruleLoop_eq_of_no_none p vctx o.rules (fun r hr => h r hr p vctx) []
      simp [he]

/-- C3 amended claim exercised on a closed input: on the pipeline whose
rules all return defined values the two trust functions coincide. -/
theorem c3_trust_variants_agree_witness :
    trustLib okOptions () () = trustPart okOptions () () :=
  c3_trust_variants_agree okOptions () () (by
    intro r hr p c
    simp only [okOptions] at hr
    simp only [List.mem_cons, List.mem_singleton] at hr
    rcases hr with hr | hr | hr
    · subst hr; simp
    · subst hr; simp
    · simp at hr)

/-- C6: on a pipeline whose rule list is empty, trust never raises a
translated failure, and whenever context normalization and capture succeed
it returns the empty result mapping, in both variants. -/
theorem c6_empty_rules (o : GatekeeperOptions Input RawCtx Parameters Context Val)
    (input : Input) (rawCtx : RawCtx) (vctx : Option Context) (p : Parameters)
    (hr : o.rules = []) :
    isUnauthorized (trustLib o input rawCtx) = false ∧
    isUnauthorized (trustPart o input rawCtx) = false ∧
    (ctxStep o rawCtx = Except.ok vctx → o.capture input = Except.ok p →
      trustLib o input rawCtx = Except.ok [] ∧
      trustPart o input rawCtx = Except.ok []) := by
  unfold trustLib trustPart
  cases hcs : ctxStep o rawCtx with
  | error t => simp [isUnauthorized]
  | ok vctx2 =>
    cases hcap : o.capture input with
    | error t => simp [isUnauthorized]
    | ok p2 =>
      rw [hr]
      simp [ruleLoopLib, ruleLoopPart, isUnauthorized]

/-- C6 exercised on a closed input: the empty pipeline returns the empty
mapping and is not a translated failure. -/
theorem c6_empty_rules_witness :
    isUnauthorized (trustLib emptyOptions () ()) = false ∧
    trustLib emptyOptions () () = Except.ok [] ∧
    trustPart emptyOptions () () = Except.ok [] := by
  have h := c6_empty_rules emptyOptions () () none () rfl
  exact ⟨h.1, (h.2.2 rfl rfl).1, (h.2.2 rfl rfl).2⟩

/-- C8: rule evaluators are invoked in declaration order on every
invocation: the tags of the invoked evaluators form, in order, an initial
segment of the declared tag list, for both variants, whose loops invoke the
identical evaluator sequence; the requirement that an evaluator only starts
after the previous one has settled is inherent in the sequential embedding
of the loop. -/
theorem c8_declaration_order
    (o : GatekeeperOptions Input RawCtx Parameters Context Val)
    (input : Input) (rawCtx : RawCtx) :
    ∃ n, (trustTrace o input rawCtx).map Prod.fst =
      (o.rules.map Prod.fst).take n := by
  unfold trustTrace
  cases hcs : ctxStep o rawCtx with
  | error t => exact ⟨0, rfl⟩
  | ok vctx =>
    cases hcap : o.capture input with
    | error t => exact ⟨0, rfl⟩
    | ok p => exact ruleTrace_tags_take p vctx o.rules

/-- C1: when every rule before rule k succeeds and the evaluator of rule k
throws, no evaluator after rule k is ever invoked (the invocation trace is
exactly the tags up to and including rule k) and trust rejects, in both
variants, with a GatekeeperUnauthorizedError whose message is the constant
UNAUTHORIZED, whose rule field is the tag of rule k, and whose reason is
the thrown Error itself, or an Error wrapping the thrown value. -/
theorem c1_fail_fast
    (o : GatekeeperOptions Input RawCtx Parameters Context Val)
    (input : Input) (rawCtx : RawCtx) (vctx : Option Context) (p : Parameters)
    (pre post : List (String × Evaluator Parameters Context Val))
    (tag : String) (f : Evaluator Parameters Context Val) (t : Thrown)
    (hcs : ctxStep o rawCtx = Except.ok vctx)
    (hcap : o.capture input = Except.ok p)
    (hr : o.rules = pre ++ (tag, f) :: post)
    (hpre : ∀ r ∈ pre, ∃ v, r.2 p vctx = Except.ok v)
    (hf : f p vctx = Except.error t) :
    trustTrace o input rawCtx = pre.map (fun r => (r.1, vctx)) ++ [(tag, vctx)] ∧
    trustLib o input rawCtx = Except.error (TrustFailure.unauthorized
      ⟨UNAUTHORIZED, translateReason t, tag⟩) ∧
    trustPart o input rawCtx = Except.error (TrustFailure.unauthorized
      ⟨UNAUTHORIZED, translateReason t, tag⟩) := by
  have hLib : ruleLoopLib p vctx o.rules [] = Except.error (t, some tag) := by
    rw [hr]
    obtain ⟨acc2, ha⟩ := ruleLoopLib_append p vctx pre ((tag, f) :: post) [] hpre
    rw [ha]
    simp [ruleLoopLib, hf]
  have hPart : ruleLoopPart p vctx o.rules [] = Except.error (t, some tag) :=
    ruleLoop_error_agree p vctx o.rules (t, some tag) [] [] hLib
  refine ⟨?_, ?_, ?_⟩
  · rw [trustTrace_ok o input rawCtx vctx p hcs hcap, hr,
      ruleTrace_append p vctx pre ((tag, f) :: post) hpre]
    simp [ruleTrace, hf]
  · rw [trustLib_loop_error o input rawCtx vctx p t (some tag) hcs hcap hLib]
    rfl
  · rw [trustPart_loop_error o input rawCtx vctx p t (some tag) hcs hcap hPart]
    rfl

/-- C1 exercised on a closed input: on the pipeline whose second rule
throws, only the first two evaluators are invoked and both trust variants
reject blaming the second rule and carrying its Error as the reason. -/
theorem c1_fail_fast_witness :
    trustTrace failOptions () () = [("first", none), ("boom", none)] ∧
    trustLib failOptions () () = Except.error (TrustFailure.unauthorized
      ⟨UNAUTHORIZED, ⟨"x"⟩, "boom"⟩) ∧
    trustPart failOptions () () = Except.error (TrustFailure.unauthorized
      ⟨UNAUTHORIZED, ⟨"x"⟩, "boom"⟩) := by
  have h := c1_fail_fast failOptions () () none ()
    [("first", fun _ _ => Except.ok (some 1))]
    [("after", fun _ _ => Except.ok (some 3))]
    "boom" (fun _ _ => Except.error (Thrown.error ⟨"x"⟩))
    (Thrown.error ⟨"x"⟩) rfl rfl rfl
    (by
      intro r hr
      simp only [List.mem_singleton] at hr
      subst hr
      exact ⟨some 1, rfl⟩)
    rfl
  simpa [translateReason] using h

/-- C4: when the rule tags are pairwise distinct and every evaluator
succeeds with a defined value, trust returns, in both variants, the mapping
holding exactly one entry per rule, keyed by that rule tag, with that rule
returned value. -/
theorem c4_all_success
    (o : GatekeeperOptions Input RawCtx Parameters Context Val)
    (input : Input) (rawCtx : RawCtx) (vctx : Option Context) (p : Parameters)
    (vf : String → Val)
    (hcs : ctxStep o rawCtx = Except.ok vctx)
    (hcap : o.capture input = Except.ok p)
    (hnd : (o.rules.map Prod.fst).Nodup)
    (hvals : ∀ r ∈ o.rules, r.2 p vctx = Except.ok (some (vf r.1))) :
    trustLib o input rawCtx =
      Except.ok (o.rules.map (fun r => (r.1, some (vf r.1)))) ∧
    trustPart o input rawCtx =
      Except.ok (o.rules.map (fun r => (r.1, some (vf r.1)))) := by
  have hno : ∀ r ∈ o.rules, r.2 p vctx ≠ Except.ok (none : Option Val) := by
    intro r hr hcontra
    rw [hvals r hr] at hcontra
    simp at hcontra
  have hlib : ruleLoopLib p vctx o.rules [] =
      Except.ok (o.rules.map (fun r => (r.1, some (vf r.1)))) := by
    have := ruleLoopLib_all_some p vctx vf o.rules hnd hvals []
      (by intro r hr e he; simp at he)
    simpa using this
  have hpart : ruleLoopPart p vctx o.rules [] =
      Except.ok (o.rules.map (fun r => (r.1, some (vf r.1)))) :=
    (ruleLoop_eq_of_no_none p vctx o.rules hno []).trans hlib
  exact ⟨trustLib_loop_ok o input rawCtx vctx p _ hcs hcap hlib,
    trustPart_loop_ok o input rawCtx vctx p _ hcs hcap hpart⟩

/-- C4 exercised on a closed input: the pipeline with two succeeding rules
returns one entry per rule under both variants. -/
theorem c4_all_success_witness :
    trustLib okOptions () () =
      Except.ok [("a", (some 1 : Option Nat)), ("b", some 2)] ∧
    trustPart okOptions () () =
      Except.ok [("a", (some 1 : Option Nat)), ("b", some 2)] := by
  have h := c4_all_success okOptions () () none ()
    (fun tag => if tag = "a" then 1 else 2) rfl rfl
    (by simp [okOptions])
    (by
      intro r hr
      simp only [okOptions, List.mem_cons, List.mem_singleton] at hr
      rcases hr with hr | hr | hr
      · subst hr; simp
      · subst hr; simp
      · simp at hr)
  simpa [okOptions] using h

/-- C5: when context normalization throws, or context normalization
succeeds and capture throws, the error propagates to the caller unmodified
as a raw failure, not as a GatekeeperUnauthorizedError, and no rule
evaluator is ever invoked, in both variants. -/
theorem c5_normalizer_error
    (o : GatekeeperOptions Input RawCtx Parameters Context Val)
    (input : Input) (rawCtx : RawCtx) (t : Thrown)
    (h : ctxStep o rawCtx = Except.error t ∨
      (∃ vctx, ctxStep o rawCtx = Except.ok vctx ∧
        o.capture input = Except.error t)) :
    trustLib o input rawCtx = Except.error (TrustFailure.raw t) ∧
    trustPart o input rawCtx = Except.error (TrustFailure.raw t) ∧
    trustTrace o input rawCtx = [] := by
  rcases h with h | ⟨vctx, hcs, hcap⟩
  · exact ⟨by unfold trustLib; rw [h], by unfold trustPart; rw [h],
      by unfold trustTrace; rw [h]⟩
  · exact ⟨by unfold trustLib; rw [hcs, hcap], by unfold trustPart; rw [hcs, hcap],
      by unfold trustTrace; rw [hcs, hcap]⟩

/-- C5 exercised on a closed input: on the pipeline whose capture throws,
both trust variants surface the original Error untranslated and no rule
runs. -/
theorem c5_normalizer_error_witness :
    trustLib badCaptureOptions () () =
      Except.error (TrustFailure.raw (Thrown.error ⟨"capfail"⟩)) ∧
    trustPart badCaptureOptions () () =
      Except.error (TrustFailure.raw (Thrown.error ⟨"capfail"⟩)) ∧
    trustTrace badCaptureOptions () () = [] :=
  c5_normalizer_error badCaptureOptions () () (Thrown.error ⟨"capfail"⟩)
    (Or.inr ⟨none, rfl, rfl⟩)

/-- C7: every error the rule loop raises is translated so that the reason
field is an Error-shaped value: the translated failure of both variants
carries translateReason of the thrown value, which is the thrown Error
itself, verbatim, when the thrown value is a proper Error, and a new Error
wrapping the stringified form otherwise. -/
theorem c7_reason_shape
    (o : GatekeeperOptions Input RawCtx Parameters Context Val)
    (input : Input) (rawCtx : RawCtx) (vctx : Option Context) (p : Parameters)
    (t : Thrown) (cur : Option String) (err : JsError) (s : String)
    (hcs : ctxStep o rawCtx = Except.ok vctx)
    (hcap : o.capture input = Except.ok p)
    (hl : ruleLoopLib p vctx o.rules [] = Except.error (t, cur)) :
    trustLib o input rawCtx = Except.error (TrustFailure.unauthorized
      (GatekeeperUnauthorizedError.make UNAUTHORIZED (translateReason t) cur)) ∧
    trustPart o input rawCtx = Except.error (TrustFailure.unauthorized
      (GatekeeperUnauthorizedError.make UNAUTHORIZED (translateReason t) cur)) ∧
    translateReason (Thrown.error err) = err ∧
    translateReason (Thrown.value s) = JsError.mk s := by
  refine ⟨trustLib_loop_error o input rawCtx vctx p t cur hcs hcap hl, ?_, rfl, rfl⟩
  exact trustPart_loop_error o input rawCtx vctx p t cur hcs hcap
    (ruleLoop_error_agree p vctx o.rules (t, cur) [] [] hl)

/-- C7 exercised on a closed input: the failing pipeline surfaces its
thrown Error verbatim as the reason, and a non-Error thrown value would be
wrapped in an Error holding its stringified form. -/
theorem c7_reason_shape_witness :
    trustLib failOptions () () = Except.error (TrustFailure.unauthorized
      ⟨UNAUTHORIZED, ⟨"x"⟩, "boom"⟩) ∧
    trustPart failOptions () () = Except.error (TrustFailure.unauthorized
      ⟨UNAUTHORIZED, ⟨"x"⟩, "boom"⟩) ∧
    translateReason (Thrown.error ⟨"x"⟩) = ⟨"x"⟩ ∧
    translateReason (Thrown.value ("oops")) = JsError.mk ("oops") := by
  have h := c7_reason_shape failOptions () () none ()
    (Thrown.error ⟨"x"⟩) (some ("boom")) ⟨"x"⟩ ("oops") rfl rfl rfl
  simpa [GatekeeperUnauthorizedError.make, translateReason] using h

/-- C9: every rule evaluator of an invocation receives the same single
context value: the sequence of context arguments handed to the invoked
evaluators is constant, equal to the validated context, which is the single
application of the configured context function to the raw context when one
is configured, and undefined for every invocation otherwise. -/
theorem c9_single_context
    (o : GatekeeperOptions Input RawCtx Parameters Context Val)
    (input : Input) (rawCtx : RawCtx) (vctx : Option Context)
    (hcs : ctxStep o rawCtx = Except.ok vctx) :
    (trustTrace o input rawCtx).map Prod.snd =
      List.replicate (trustTrace o input rawCtx).length vctx ∧
    (o.context = none → vctx = none) ∧
    (∀ f, o.context = some f → ∃ c, f rawCtx = Except.ok c ∧ vctx = some c) := by
  refine ⟨?_, ?_, ?_⟩
  · have hall : ∀ e ∈ trustTrace o input rawCtx, e.2 = vctx := by
      unfold trustTrace
      rw [hcs]
      cases hcap : o.capture input with
      | error t => intro e he; simp at he
      | ok p =>
        intro e he
        simp only at he
        exact ruleTrace_ctx p vctx o.rules e he
    have hmem : ∀ b ∈ (trustTrace o input rawCtx).map Prod.snd, b = vctx := by
      intro b hb
      obtain ⟨e, he, hbe⟩ := List.mem_map.mp hb
      rw [← hbe]
      exact hall e he
    have hlen : ((trustTrace o input rawCtx).map Prod.snd).length =
        (trustTrace o input rawCtx).length := List.length_map _ _
    rw [← hlen]
    exact List.eq_replicate_length.mpr hmem
  · intro hnone
    unfold ctxStep at hcs
    rw [hnone] at hcs
    simp at hcs
    exact hcs.symm
  · intro f hf
    unfold ctxStep at hcs
    rw [hf] at hcs
    cases hfc : f rawCtx with
    | error t => simp [hfc] at hcs
    | ok c =>
      simp [hfc] at hcs
      exact ⟨c, rfl, hcs.symm⟩

/-- C9 exercised on closed inputs: with a configured context function every
invoked evaluator receives its single output, and without one every invoked
evaluator receives the undefined context. -/
theorem c9_single_context_witness :
    (trustTrace ctxOptions () ()).map Prod.snd =
      List.replicate (trustTrace ctxOptions () ()).length (some 5) ∧
    (trustTrace noCtxOptions () ()).map Prod.snd =
      List.replicate (trustTrace noCtxOptions () ()).length (none : Option Nat) :=
  ⟨(c9_single_context ctxOptions () () (some 5) rfl).1,
   (c9_single_context noCtxOptions () () none rfl).1⟩

/-- C10: every GatekeeperUnauthorizedError raised by either trust variant
carries a rule field equal to the tag of some rule of the configured rule
list; consequently the fallback label failcheck is never observed unless a
rule itself bears that tag. -/
theorem c10_rule_attribution
    (o : GatekeeperOptions Input RawCtx Parameters Context Val)
    (input : Input) (rawCtx : RawCtx) (e : GatekeeperUnauthorizedError)
    (h : trustLib o input rawCtx = Except.error (TrustFailure.unauthorized e) ∨
      trustPart o input rawCtx = Except.error (TrustFailure.unauthorized e)) :
    e.rule ∈ o.rules.map Prod.fst ∧
    ((("failcheck" : String) ∉ o.rules.map Prod.fst) → e.rule ≠ "failcheck") := by
  have hmem : e.rule ∈ o.rules.map Prod.fst := by
    rcases h with h | h
    · obtain ⟨vctx, p, t, cur, _, _, hl, he⟩ :=
        trustLib_unauthorized_inv o input rawCtx e h
      obtain ⟨tag, hcur, htag⟩ := ruleLoopLib_error_tag p vctx o.rules t cur [] hl
      subst hcur
      rw [he]
      simpa [GatekeeperUnauthorizedError.make] using htag
    · obtain ⟨vctx, p, t, cur, _, _, hl, he⟩ :=
        trustPart_unauthorized_inv o input rawCtx e h
      obtain ⟨tag, hcur, htag⟩ := ruleLoopPart_error_tag p vctx o.rules t cur [] hl
      subst hcur
      rw [he]
      simpa [GatekeeperUnauthorizedError.make] using htag
  refine ⟨hmem, fun hnf heq => hnf ?_⟩
  rw [← heq]
  exact hmem

/-- C10 exercised on a closed input: the failure of the failing pipeline
blames a declared rule tag and not the fallback label. -/
theorem c10_rule_attribution_witness :
    (("boom" : String) ∈ failOptions.rules.map Prod.fst) ∧
    (GatekeeperUnauthorizedError.rule ⟨UNAUTHORIZED, ⟨"x"⟩, "boom"⟩ ≠ "failcheck") := by
  have h := c10_rule_attribution failOptions () ()
    ⟨UNAUTHORIZED, ⟨"x"⟩, "boom"⟩ (Or.inl (by rfl))
  exact ⟨h.1, h.2 (by simp [failOptions])⟩

end Gatekeeper
